import Mathlib

/-!
Shallow embedding of the Qt model/view subclasses of the rpfm repository
(qt_rpfm_extensions and rpfm_ui/qt_subclasses) and proofs about them.

The embedding covers:
* `QTableViewSortFilterProxyModel::filterAcceptsRow` and `lessThan`
  (src/3rdparty/src/qt_rpfm_extensions/src/tableview_filter.cpp),
* `QTreeViewSortFilterProxyModel::filterAcceptsRow`
  (src/rpfm_ui/qt_subclasses/src/treeview_filter.cpp),
* `QTableViewFrozen` geometry/selection/tooltip logic
  (src/3rdparty/src/qt_rpfm_extensions/src/tableview_frozen.cpp),
* `QtLongLongSpinBox`
  (src/3rdparty/src/qt_rpfm_extensions/src/qt_long_long_spinbox.cpp).

Machine `qlonglong` values are modelled as `Int` with an explicit
two's-complement wrap where overflow can occur.  The external regular
expression engine (QRegularExpression) is abstracted as a parameter
structure `RegexEngine`; all concrete inputs used below exercise only the
non-regex code paths, which are modelled executably.
-/

namespace Rpfm

/-- A cell of a QStandardItemModel, restricted to the roles the embedded
code reads: `data(Qt::CheckStateRole)` (`none` models an invalid QVariant),
`data(2)` and `data(40)` after `toString()` (a null QVariant stringifies to
the empty string), and the custom role `data(24)` (`none` models a null
QVariant, `some b` a QVariant whose `toBool()` is `b`). -/
structure Cell where
  checkData : Option Nat
  data2 : String
  data40 : String
  data24 : Option Bool
deriving DecidableEq

/-- The `checkState()` of a QStandardItem: `data(CheckStateRole).toInt()`;
an invalid QVariant converts to 0 (Qt::Unchecked). -/
def checkStateOf (c : Cell) : Nat :=
  c.checkData.getD 0

/-- A table source model: rows of cells. -/
abbrev TModel := List (List Cell)

/-- `sourceModel()->index(row, col, parent)` followed by `itemFromIndex`:
valid (and yielding an item) exactly when both coordinates are in bounds. -/
def getCell (m : TModel) (row col : Int) : Option Cell :=
  if h : 0 ≤ row ∧ row.toNat < m.length then
    let r := m.get ⟨row.toNat, h.2⟩
    if h2 : 0 ≤ col ∧ col.toNat < r.length then some (r.get ⟨col.toNat, h2.2⟩)
    else none
  else none

/-- Abstraction of QRegularExpression: `valid p` models
`QRegularExpression(p, opts).isValid()` and `hasMatch cs p s` models
`regex.match(s).hasMatch()` where `cs` is true for a case-sensitive
pattern (no CaseInsensitiveOption). -/
structure RegexEngine where
  valid : String → Bool
  hasMatch : Bool → String → String → Bool

/-- Contiguous-sublist check used to model QString::contains. -/
def listInfixCheck (pat : List Char) : List Char → Bool
  | [] => pat.isEmpty
  | c :: t => pat.isPrefixOf (c :: t) || listInfixCheck pat t

/-- QString::contains(pattern, caseSensitivity): substring containment;
the case-insensitive form folds both sides with `Char.toLower`. -/
def qcontains (caseSensitive : Bool) (hay pat : String) : Bool :=
  if caseSensitive then listInfixCheck pat.data hay.data
  else listInfixCheck (pat.data.map Char.toLower) (hay.data.map Char.toLower)

/-- The filter configuration stored on QTableViewSortFilterProxyModel by
`trigger_tableview_filter` (tableview_filter.cpp lines 15-38). -/
structure FilterConfig where
  columns : List Int
  patterns : List String
  nott : List Int
  regex : List Int
  case_sensitive : List Int
  show_blank_cells : List Int
  match_groups_per_column : List Int
  variant_to_search : List Int
  show_edited_cells : List Int

/-- Line 103 of tableview_filter.cpp: a null role-24 QVariant is read as
`false`, otherwise the QVariant is converted with `toBool()`. -/
def isModifiedFromVanilla (c : Cell) : Bool :=
  match c.data24 with
  | none => false
  | some b => b

/-- The roles searched for a filter entry (lines 89-97): 2, 40, or both. -/
def variantsFor (v : Int) : List Nat :=
  if v == 0 then [2]
  else if v == 1 then [40]
  else [2, 40]

/-- Reading a cell's data at role 2 or 40 as a string. -/
def dataVariant (c : Cell) (v : Nat) : String :=
  if v == 2 then c.data2
  else if v == 40 then c.data40
  else ""

/-- The body of one filter-entry check of
`QTableViewSortFilterProxyModel::filterAcceptsRow` after the source item
has been fetched (tableview_filter.cpp lines 82-193).  Returns `true` when
the entry leaves `is_group_valid` untouched (`continue`/no-op) and `false`
when it sets `is_group_valid = false`.  A `none` cell models an invalid
`currntIndex`, whose whole block is skipped. -/
def entryCellDecide (eng : RegexEngine) (cfg : FilterConfig) (i : Nat)
    (pattern : String) (cellOpt : Option Cell) : Bool :=
  let use_regex := cfg.regex.getD i 0 == 1
  let use_nott := cfg.nott.getD i 0 == 1
  let caseSensitive := !(cfg.case_sensitive.getD i 0 == 0)
  let show_blank_cells_in_column := cfg.show_blank_cells.getD i 0 == 1
  let show_edited_cells_in_column := cfg.show_edited_cells.getD i 0 == 1
  let variants := variantsFor (cfg.variant_to_search.getD i 0)
  match cellOpt with
  | none => true
  | some cell =>
    if show_edited_cells_in_column && isModifiedFromVanilla cell then true
    else if cell.checkData.isSome then
      let pattern_lower := pattern.toLower
      let isChecked0 := checkStateOf cell == 2
      let isChecked := if use_nott then !isChecked0 else isChecked0
      !(((pattern_lower == "true" || pattern_lower == "1") && !isChecked) ||
        ((pattern_lower == "false" || pattern_lower == "0") && isChecked))
    else if show_blank_cells_in_column && (dataVariant cell 2).isEmpty then true
    else if use_regex then
      let pattern2 := if use_nott then "^((?!" ++ pattern ++ ").)*$" else pattern
      if eng.valid pattern2 then
        variants.all (fun v => eng.hasMatch caseSensitive pattern2 (dataVariant cell v))
      else true
    else
      if use_nott then
        !(variants.any (fun v => qcontains caseSensitive (dataVariant cell v) pattern))
      else
        variants.all (fun v => qcontains caseSensitive (dataVariant cell v) pattern)

/-- One filter entry of `filterAcceptsRow` (lines 76-193): an empty pattern
is skipped before any model access; otherwise the cell at
`(source_row, columns[i])` is fetched and checked. -/
def entryKeepsGroup (eng : RegexEngine) (cfg : FilterConfig) (m : TModel)
    (source_row : Int) (i : Nat) : Bool :=
  let pattern := cfg.patterns.getD i ""
  if pattern.isEmpty then true
  else entryCellDecide eng cfg i pattern (getCell m source_row (cfg.columns.getD i 0))

/-- QMap<int, QVector<int>>::contains. -/
def qmapContains (m : List (Int × List Nat)) (k : Int) : Bool :=
  m.any (fun e => e.1 == k)

/-- QMap insert: replaces the value at the key, keeping keys sorted. -/
def qmapSet (m : List (Int × List Nat)) (k : Int) (v : List Nat) :
    List (Int × List Nat) :=
  match m with
  | [] => [(k, v)]
  | e :: rest =>
    if k < e.1 then (k, v) :: e :: rest
    else if k == e.1 then (k, v) :: rest
    else e :: qmapSet rest k v

/-- `map[k].append(i)`: appends to the entry at the key, default-creating
an empty vector first when the key is absent; keys stay sorted. -/
def qmapAppendAt (m : List (Int × List Nat)) (k : Int) (i : Nat) :
    List (Int × List Nat) :=
  match m with
  | [] => [(k, [i])]
  | e :: rest =>
    if k < e.1 then (k, [i]) :: e :: rest
    else if k == e.1 then (e.1, e.2 ++ [i]) :: rest
    else e :: qmapAppendAt rest k i

/-- The group-splitting loop of `filterAcceptsRow` (tableview_filter.cpp
lines 52-64), exactly as written: when the map already contains the group
the entry is REPLACED by a fresh singleton vector, and only when it is
absent is the index appended (to a default-created empty vector). -/
def buildMatchesPerGroup (mgs : List Int) : List (Int × List Nat) :=
  (List.range mgs.length).foldl
    (fun acc i =>
      let group := mgs.getD i 0
      if qmapContains acc group then qmapSet acc group [i]
      else qmapAppendAt acc group i)
    []

namespace QtExtTableFilter

/-- `QTableViewSortFilterProxyModel::filterAcceptsRow` of
qt_rpfm_extensions (tableview_filter.cpp lines 44-202): empty pattern list
accepts everything; otherwise the row is accepted when some group of the
split has all of its entries passing. -/
def filterAcceptsRow (eng : RegexEngine) (cfg : FilterConfig) (m : TModel)
    (source_row : Int) : Bool :=
  if cfg.patterns.isEmpty then true
  else
    let matches_per_group := buildMatchesPerGroup cfg.match_groups_per_column
    matches_per_group.any (fun g =>
      g.2.all (fun i => entryKeepsGroup eng cfg m source_row i))

/-- Modelled from the spec's words for the refinement of claim C1: a group
value is valid exactly when every filter entry assigned to it (an entry
with a non-empty pattern; empty patterns are skipped inside
`entryKeepsGroup`) matches, and the row is accepted if and only if some
group value occurring in `match_groups_per_column` is valid. -/
def specFilterAcceptsRow (eng : RegexEngine) (cfg : FilterConfig) (m : TModel)
    (source_row : Int) : Bool :=
  if cfg.patterns.isEmpty then true
  else
    cfg.match_groups_per_column.any (fun g =>
      (List.range cfg.match_groups_per_column.length).all (fun i =>
        if cfg.match_groups_per_column.getD i 0 == g then
          entryKeepsGroup eng cfg m source_row i
        else true))

/-- `QTableViewSortFilterProxyModel::lessThan` of qt_rpfm_extensions
(tableview_filter.cpp lines 205-222), for two source items, with the
base-class comparison abstracted as `fallback`.  The first guard models
`data(Qt::CheckStateRole).isValid()` on both items. -/
def lessThan (l r : Cell) (fallback : Bool) : Bool :=
  if l.checkData.isSome && r.checkData.isSome then
    if checkStateOf l == checkStateOf r then false
    else if checkStateOf l == 2 && checkStateOf r == 0 then false
    else true
  else fallback

end QtExtTableFilter

namespace UiTableFilter

/-- `QTableViewSortFilterProxyModel::lessThan` of rpfm_ui/qt_subclasses
(tableview_filter.cpp lines 93-109): identical comparator, but guarded by
`QStandardItem::isCheckable()` (an item flag) on both items. -/
def lessThan (lCheckable rCheckable : Bool) (lState rState : Nat)
    (fallback : Bool) : Bool :=
  if lCheckable && rCheckable then
    if lState == rState then false
    else if lState == 2 && rState == 0 then false
    else true
  else fallback

end UiTableFilter

/-- A node of the tree source model behind
`QTreeViewSortFilterProxyModel` (rpfm_ui treeview_filter.cpp): the
display data in column 0, the strings stored at the custom roles 41 and
42, and the child rows. -/
inductive PTree where
  | node (display extra41 extra42 : String) (children : List PTree)

namespace UiTreeFilter

/-!
`QTreeViewSortFilterProxyModel::filterAcceptsRow` (treeview_filter.cpp
lines 24-72).  The base-class filter
`QSortFilterProxyModel::filterAcceptsRow` (match of the display data of
column 0 against `filterRegExp()`) is abstracted as a parameter
`f : String → Bool`; `parentBase` is the value of the base filter for the
row's parent (`filterAcceptsRow` of the grandparent context, line 57),
which equals `f` applied to the parent node's display data.
-/

mutual

/-- Acceptance of one node: base match first; a node with children runs
the child loop (lines 31-48); a childless node that the base filter
rejects falls back to the parent's base match or-ed with its own
role-41/42 extra data (lines 53-69). -/
def treeAccepts (f : String → Bool) (parentBase : Bool) : PTree → Bool
  | .node d e1 e2 cs =>
    let result0 := f d
    if cs.isEmpty then
      if result0 then result0
      else
        let r1 := parentBase
        let r2 := if !e1.isEmpty then r1 || f e1 else r1
        if !e2.isEmpty then r2 || f e2 else r2
    else treeLoop f (f d) e1 e2 cs result0

/-- The child loop of the folder branch (lines 32-47): runs while the
result is still false, or-ing in the folder's own role-41/42 extra data
and each child's recursive acceptance; `selfBase` is the folder's own
base match, which acts as `parentBase` for its children. -/
def treeLoop (f : String → Bool) (selfBase : Bool) (e1 e2 : String)
    (cs : List PTree) (result : Bool) : Bool :=
  match cs with
  | [] => result
  | c :: rest =>
    if result then result
    else
      let r1 := if !e1.isEmpty then result || f e1 else result
      let r2 := if !e2.isEmpty then r1 || f e2 else r1
      let r3 := r2 || treeAccepts f selfBase c
      treeLoop f selfBase e1 e2 rest r3

end

end UiTreeFilter

namespace Frozen

/-!
`QTableViewFrozen` / `QTableViewSubFrozen`
(src/3rdparty/src/qt_rpfm_extensions/src/tableview_frozen.cpp).  The
modelled state is the part the verified claims touch: the frozen-column
list, the overlay view's per-column hidden flags and vertical-header
visibility, and the viewport margins.  Pixel geometry (widths, heights,
`setGeometry`) is toolkit layout and is not modelled.
-/

/-- State of the QTableViewFrozen widget pair relevant to freezing. -/
structure FrozenState where
  frozenColumns : List Int
  baseLeftMargin : Int
  viewportMarginLeft : Int
  columnHidden : Int → Bool
  verticalHeaderVisible : Bool

/-- One iteration of the geometry-update loop:
`tableViewFrozen->setColumnHidden(i, !frozenColumns.contains(i))`. -/
def hideStep (st : FrozenState) (i : Nat) : FrozenState :=
  let is_frozen := st.frozenColumns.contains (Int.ofNat i)
  { st with
    columnHidden := fun j => if j == Int.ofNat i then !is_frozen else st.columnHidden j }

/-- `QTableViewFrozen::updateFrozenTableGeometry` (lines 328-366),
restricted to its effect on the overlay's hidden columns: for every
column `i` of the source model it runs `hideStep`.  `colCount` is
`sourceModel()->columnCount()`. -/
def updateFrozenTableGeometry (colCount : Nat) (s : FrozenState) : FrozenState :=
  (List.range colCount).foldl hideStep s

/-- `QTableViewFrozen::toggleFreezer` (lines 369-394): records the base
left margin on first use, toggles the column's membership in
`frozenColumns` (`removeOne` removes the first occurrence), shows the
overlay's vertical header exactly when some column is frozen, and runs
`updateFrozenTableGeometry`. -/
def toggleFreezer (colCount : Nat) (s : FrozenState) (column : Int) : FrozenState :=
  let s0 := if s.baseLeftMargin == -1 then { s with baseLeftMargin := s.viewportMarginLeft } else s
  let s1 :=
    if s0.frozenColumns.contains column then
      { s0 with frozenColumns := s0.frozenColumns.erase column }
    else
      { s0 with frozenColumns := s0.frozenColumns ++ [column] }
  let s2 := { s1 with verticalHeaderVisible := !s1.frozenColumns.isEmpty }
  updateFrozenTableGeometry colCount s2

/-- A model index as the selection-synchronization code sees it:
a (row, column) pair. -/
abbrev Idx := Int × Int

/-- `QTableViewFrozen::updateSelectionNormalToFrozen` (lines 218-230):
applies Select for every index of `selected` and then Deselect for every
index of `deselected` to the frozen view's selection model. -/
def updateSelectionNormalToFrozen (oppositeSelection : Finset Idx)
    (selected deselected : List Idx) : Finset Idx :=
  let afterSelect := selected.foldl (fun acc index => insert index acc) oppositeSelection
  deselected.foldl (fun acc index => acc.erase index) afterSelect

/-- `QTableViewFrozen::updateSelectionFrozenToNormal` (lines 233-245):
the same delta application, targeting the normal view's selection model. -/
def updateSelectionFrozenToNormal (oppositeSelection : Finset Idx)
    (selected deselected : List Idx) : Finset Idx :=
  let afterSelect := selected.foldl (fun acc index => insert index acc) oppositeSelection
  deselected.foldl (fun acc index => acc.erase index) afterSelect

/-- Tooltip callback pointers are modelled as `Option Nat`
(`none` = nullptr, `some id` = a concrete function pointer). -/
abbrev Callback := Option Nat

/-- The callback pointers stored by the two views after
`QTableViewFrozen`'s constructor (lines 41-50) run on the arguments of
`new_tableview_frozen`.  Line 45 constructs the `QTableViewSubFrozen`
passing the `generateTooltipMessage` member, and only line 46 assigns
that member from the `generate_tooltip_message` parameter; the member
has no initializer (tableview_frozen.h line 53), so the value the sub
view receives is the member's indeterminate pre-assignment content,
modelled by the `uninit` parameter. -/
def mkTableViewFrozen (uninit : Callback) (generate_tooltip_message : Callback) :
    Callback × Callback :=
  (generate_tooltip_message, uninit)

/-- Result of one `viewportEvent` call: the callbacks invoked during it
and whether the event reached the base-class handler. -/
structure EventOutcome where
  invoked : List Nat
  forwardedToBase : Bool
deriving DecidableEq

/-- `QTableViewFrozen::viewportEvent` (lines 396-406): on a ToolTip event
the stored callback is invoked when non-null; the event is always
forwarded to `QTableView::viewportEvent`. -/
def viewportEventFrozen (generateTooltipMessage : Callback) (isToolTip : Bool) :
    EventOutcome :=
  if isToolTip then
    match generateTooltipMessage with
    | some cb => { invoked := [cb], forwardedToBase := true }
    | none => { invoked := [], forwardedToBase := true }
  else { invoked := [], forwardedToBase := true }

/-- `QTableViewSubFrozen::viewportEvent` (lines 425-435): identical body. -/
def viewportEventSubFrozen (generateTooltipMessage : Callback) (isToolTip : Bool) :
    EventOutcome :=
  if isToolTip then
    match generateTooltipMessage with
    | some cb => { invoked := [cb], forwardedToBase := true }
    | none => { invoked := [], forwardedToBase := true }
  else { invoked := [], forwardedToBase := true }

end Frozen

namespace SpinBox

/-!
`QtLongLongSpinBox`
(src/3rdparty/src/qt_rpfm_extensions/src/qt_long_long_spinbox.cpp).
`qlonglong` is modelled as `Int`; the one place where the C++ arithmetic
can overflow (`m_value + steps * m_singleStep` in `stepBy`) wraps through
`wrapI64`.  The fields `m_prefixText`/`m_suffixText` model the C++
members holding the prefix and postfix strings.
-/

/-- Lower bound of qlonglong: -2^63. -/
def i64Min : Int := -(2 ^ 63)

/-- Upper bound of qlonglong: 2^63 - 1. -/
def i64Max : Int := 2 ^ 63 - 1

/-- Two's-complement wrap of an Int into the qlonglong range. -/
def wrapI64 (x : Int) : Int :=
  (x + 2 ^ 63) % 2 ^ 64 - 2 ^ 63

/-- qBound(min, val, max) = qMax(min, qMin(max, val)). -/
def qBound (lo v hi : Int) : Int :=
  max lo (min hi v)

/-- QString::number for a qlonglong. -/
def qstringNumber (v : Int) : String :=
  toString v

/-- Digit-list parser backing `toLongLong`: all characters must be
decimal digits and there must be at least one. -/
def parseDigits (cs : List Char) : Option Nat :=
  match cs with
  | [] => none
  | _ =>
    if cs.all Char.isDigit then
      some (cs.foldl (fun n c => n * 10 + (c.toNat - 48)) 0)
    else none

/-- QString::toLongLong (base 10): ignores surrounding whitespace,
accepts an optional sign followed by digits, fails on anything else or on
a value outside the qlonglong range.  `none` models `ok = false` (the
C++ call also yields the value 0 in that case). -/
def toLongLong (str : String) : Option Int :=
  let t := str.trim
  match t.data with
  | [] => none
  | c :: rest =>
    let signed : Bool × List Char :=
      if c == Char.ofNat 45 then (true, rest)
      else if c == Char.ofNat 43 then (false, rest)
      else (false, c :: rest)
    match parseDigits signed.2 with
    | none => none
    | some n =>
      let v : Int := if signed.1 then -(n : Int) else (n : Int)
      if i64Min ≤ v ∧ v ≤ i64Max then some v else none

/-- QString::mid(pos, len): from position `pos`, at most `len`
characters; a negative `len` takes everything to the end. -/
def strMid (s : String) (pos len : Int) : String :=
  let dropped := s.data.drop pos.toNat
  if len < 0 then String.mk dropped else String.mk (dropped.take len.toNat)

/-- The widget state: the C++ members plus the line edit's text and the
two QAbstractSpinBox properties the code consults. -/
structure SpinState where
  m_prefixText : String
  m_suffixText : String
  m_singleStep : Int
  m_minimum : Int
  m_maximum : Int
  m_value : Int
  lineEditText : String
  m_invalidValues : List Int
  wrapping : Bool
  readOnly : Bool
deriving DecidableEq

/-- `QtLongLongSpinBox::setValue` (lines 64-75): clamps with qBound,
rewrites the line edit text, and stores the new value (the
value-changed signals are not modelled). -/
def setValue (s : SpinState) (expectedNewValue : Int) : SpinState :=
  let newValue := qBound s.m_minimum expectedNewValue s.m_maximum
  let newValueString := qstringNumber newValue
  { s with
    lineEditText := s.m_prefixText ++ newValueString ++ s.m_suffixText,
    m_value := newValue }

/-- The constructor (lines 48-57): qlonglong limits, value 0, step 1,
then `setValue(m_value)`.  Wrapping and read-only are the
QAbstractSpinBox defaults (false). -/
def mkQtLongLongSpinBox : SpinState :=
  setValue
    { m_prefixText := "", m_suffixText := "", m_singleStep := 1,
      m_minimum := i64Min, m_maximum := i64Max, m_value := 0,
      lineEditText := "", m_invalidValues := [], wrapping := false,
      readOnly := false }
    0

/-- `QtLongLongSpinBox::setPrefix` (lines 82-87). -/
def setPrefixText (s : SpinState) (p : String) : SpinState :=
  let s1 := { s with m_prefixText := p }
  setValue s1 s1.m_value

/-- `QtLongLongSpinBox::setSuffix` (lines 94-99). -/
def setSuffixText (s : SpinState) (x : String) : SpinState :=
  let s1 := { s with m_suffixText := x }
  setValue s1 s1.m_value

/-- `QtLongLongSpinBox::setMinimum` (lines 121-129): stores the minimum,
raises the maximum to it when the bounds cross, then re-clamps the value
via `setValue(m_value)`. -/
def setMinimum (s : SpinState) (mn : Int) : SpinState :=
  let s1 := { s with m_minimum := mn }
  let s2 := if s1.m_maximum < s1.m_minimum then { s1 with m_maximum := s1.m_minimum } else s1
  setValue s2 s2.m_value

/-- `QtLongLongSpinBox::setMaximum` (lines 136-144). -/
def setMaximum (s : SpinState) (mx : Int) : SpinState :=
  let s1 := { s with m_maximum := mx }
  let s2 := if s1.m_maximum < s1.m_minimum then { s1 with m_maximum := s1.m_minimum } else s1
  setValue s2 s2.m_value

/-- `QtLongLongSpinBox::setRange` (lines 146-158): orders the two bounds
and re-clamps. -/
def setRange (s : SpinState) (mn mx : Int) : SpinState :=
  let s1 :=
    if mn < mx then { s with m_minimum := mn, m_maximum := mx }
    else { s with m_minimum := mx, m_maximum := mn }
  setValue s1 s1.m_value

/-- QValidator::State. -/
inductive QValidatorState where
  | Invalid
  | Intermediate
  | Acceptable
deriving DecidableEq

/-- `QtLongLongSpinBox::validate` (lines 239-278).  The in-out mutation
of `input`/`pos` is dropped: the only modelled caller (`stepBy`) discards
both.  `ok`/`value` model the out-parameter protocol of
QString::toLongLong (failure yields `ok = false`, `value = 0`). -/
def validate (s : SpinState) (input : String) : QValidatorState :=
  let r := toLongLong input
  let ok := r.isSome
  let value := r.getD 0
  if ok ∧ s.m_invalidValues.contains value then QValidatorState.Invalid
  else if input.isEmpty ∨ (ok ∧ value ≤ s.m_maximum) then QValidatorState.Acceptable
  else
    let valid := (s.m_prefixText.isEmpty || input.startsWith s.m_prefixText) &&
                 (s.m_suffixText.isEmpty || input.endsWith s.m_suffixText)
    if valid then
      let start := (s.m_prefixText.length : Int)
      let len := (input.length : Int) - start - (s.m_suffixText.length : Int)
      let number := strMid input start len
      let r2 := toLongLong number
      if number.isEmpty ∨ (r2.isSome ∧ r2.getD 0 ≤ s.m_maximum) then QValidatorState.Acceptable
      else QValidatorState.Invalid
    else QValidatorState.Invalid

/-- `QtLongLongSpinBox::lineEditEditingFinalize` (lines 280-316): parses
the line edit text (bare, then with the prefix/postfix stripped) and
calls `setValue` on every path, falling back to the old value. -/
def lineEditEditingFinalize (s : SpinState) : SpinState :=
  let text := s.lineEditText
  match toLongLong text with
  | some value => setValue s value
  | none =>
    let valid := (s.m_prefixText.isEmpty || text.startsWith s.m_prefixText) &&
                 (s.m_suffixText.isEmpty || text.endsWith s.m_suffixText)
    if valid then
      let start := (s.m_prefixText.length : Int)
      let len := (text.length : Int) - start - (s.m_suffixText.length : Int)
      match toLongLong (strMid text start len) with
      | some value => setValue s value
      | none => setValue s s.m_value
    else setValue s s.m_value

/-- The tail of `stepBy` after the pending edit has been finalized
(lines 206-236): computes the stepped value (qlonglong arithmetic,
wrapped), abandons the step when `validate` rejects it, wraps around or
clamps depending on `wrapping()`, and ends in `setValue` (the final
`selectCleanText` touches only the selection). -/
def stepByResolved (s1 : SpinState) (steps : Int) : SpinState :=
  let newValue0 := wrapI64 (s1.m_value + steps * s1.m_singleStep)
  let newString := qstringNumber newValue0
  if validate s1 newString = QValidatorState.Invalid then s1
  else
    let newValue :=
      if s1.wrapping then
        if newValue0 > s1.m_maximum then
          if s1.m_value == s1.m_maximum then s1.m_minimum else s1.m_maximum
        else if newValue0 < s1.m_minimum then
          if s1.m_value == s1.m_minimum then s1.m_maximum else s1.m_minimum
        else newValue0
      else qBound s1.m_minimum newValue0 s1.m_maximum
    setValue s1 newValue

/-- `QtLongLongSpinBox::stepBy` (lines 196-237): no-op when read-only;
finalizes a pending edit (line-edit text differing from the composed
current value); then `stepByResolved`. -/
def stepBy (s : SpinState) (steps : Int) : SpinState :=
  if s.readOnly then s
  else
    let s1 :=
      if s.m_prefixText ++ qstringNumber s.m_value ++ s.m_suffixText ≠ s.lineEditText then
        lineEditEditingFinalize s
      else s
    stepByResolved s1 steps

/-- The bounds invariant of claim C9. -/
def SpinInv (s : SpinState) : Prop :=
  s.m_minimum ≤ s.m_maximum ∧ s.m_minimum ≤ s.m_value ∧ s.m_value ≤ s.m_maximum

instance (s : SpinState) : Decidable (SpinInv s) := by
  unfold SpinInv
  infer_instance

end SpinBox

/-!
State-threading variants of the proxy-model callbacks, for the
frame-effect claim: the source methods are `const` and perform only read
accesses (`index`, `itemFromIndex`, `data`, `hasChildren`, `rowCount`) on
the source model.  Each read is threaded through the model state
explicitly, and the theorems show the final model equals the initial one:
the embedded code contains no write operation.
-/

/-- A read access on a model state: yields the value and the state. -/
def modelRead {σ α : Type} (m : σ) (v : α) : α × σ :=
  (v, m)

namespace QtExtTableFilter

/-- The per-entry loop of `filterAcceptsRow` over one group's entry
indexes, threading the source model through the `index`/`itemFromIndex`
reads; stops on the first entry that invalidates the group. -/
def entriesRun (eng : RegexEngine) (cfg : FilterConfig) (source_row : Int) :
    List Nat → TModel → Bool × TModel
  | [], m => (true, m)
  | i :: rest, m =>
    let pattern := cfg.patterns.getD i ""
    if pattern.isEmpty then entriesRun eng cfg source_row rest m
    else
      let read := modelRead m (getCell m source_row (cfg.columns.getD i 0))
      if entryCellDecide eng cfg i pattern read.1 then entriesRun eng cfg source_row rest read.2
      else (false, read.2)

/-- The group loop of `filterAcceptsRow`, threading the model; returns on
the first valid group. -/
def groupsRun (eng : RegexEngine) (cfg : FilterConfig) (source_row : Int) :
    List (Int × List Nat) → TModel → Bool × TModel
  | [], m => (false, m)
  | g :: rest, m =>
    let r := entriesRun eng cfg source_row g.2 m
    if r.1 then (true, r.2) else groupsRun eng cfg source_row rest r.2

/-- `filterAcceptsRow` with the source model threaded through every read. -/
def filterAcceptsRowRun (eng : RegexEngine) (cfg : FilterConfig) (m : TModel)
    (source_row : Int) : Bool × TModel :=
  if cfg.patterns.isEmpty then (true, m)
  else groupsRun eng cfg source_row (buildMatchesPerGroup cfg.match_groups_per_column) m

/-- `lessThan` with the source model threaded through the two
`itemFromIndex` reads; out-of-model indexes fall through to the
base-class comparison value. -/
def lessThanRun (m : TModel) (lrow lcol rrow rcol : Int) (fallback : Bool) :
    Bool × TModel :=
  let lread := modelRead m (getCell m lrow lcol)
  let rread := modelRead lread.2 (getCell lread.2 rrow rcol)
  match lread.1, rread.1 with
  | some lc, some rc => (lessThan lc rc fallback, rread.2)
  | _, _ => (fallback, rread.2)

end QtExtTableFilter

namespace UiTreeFilter

mutual

/-- `QTreeViewSortFilterProxyModel::filterAcceptsRow` with the tree model
threaded through every read (`tm` is the model state; `t` the node the
reads resolve to). -/
def treeAcceptsRun (f : String → Bool) (parentBase : Bool) (t : PTree)
    (tm : PTree) : Bool × PTree :=
  match t with
  | .node d e1 e2 cs =>
    let r0 := modelRead tm (f d)
    if cs.isEmpty then
      if r0.1 then (r0.1, r0.2)
      else
        let r1 := modelRead r0.2 parentBase
        let x1 := modelRead r1.2 e1
        let v1 := if !x1.1.isEmpty then r1.1 || f x1.1 else r1.1
        let x2 := modelRead x1.2 e2
        let v2 := if !x2.1.isEmpty then v1 || f x2.1 else v1
        (v2, x2.2)
    else treeLoopRun f (f d) e1 e2 cs r0.1 r0.2

/-- The child loop of the folder branch, threading the model through the
per-iteration reads and the recursive calls. -/
def treeLoopRun (f : String → Bool) (selfBase : Bool) (e1 e2 : String)
    (cs : List PTree) (result : Bool) (tm : PTree) : Bool × PTree :=
  match cs with
  | [] => (result, tm)
  | c :: rest =>
    if result then (result, tm)
    else
      let x1 := modelRead tm e1
      let r1 := if !x1.1.isEmpty then result || f x1.1 else result
      let x2 := modelRead x1.2 e2
      let r2 := if !x2.1.isEmpty then r1 || f x2.1 else r1
      let rc := treeAcceptsRun f selfBase c x2.2
      treeLoopRun f selfBase e1 e2 rest (r2 || rc.1) rc.2

end

end UiTreeFilter

/-!
Concrete instances used by the closed evaluations below.
-/

/-- A concrete regex engine; every configuration below keeps the regex
flags at 0, so its behaviour is irrelevant to the evaluated paths. -/
def eng0 : RegexEngine :=
  { valid := fun _ => false, hasMatch := fun _ _ _ => false }

/-- Two plain text filter entries, both assigned to match group 0. -/
def cfgTwoInGroup : FilterConfig :=
  { columns := [0, 0], patterns := ["a", "b"], nott := [0, 0], regex := [0, 0],
    case_sensitive := [1, 1], show_blank_cells := [0, 0],
    match_groups_per_column := [0, 0], variant_to_search := [0, 0],
    show_edited_cells := [0, 0] }

/-- A one-row, one-column model whose only cell holds the text "b". -/
def modelB : TModel :=
  [[{ checkData := none, data2 := "b", data40 := "", data24 := none }]]

/-- An empty pattern list next to non-empty sibling lists. -/
def cfgEmptyPatterns : FilterConfig :=
  { columns := [3], patterns := [], nott := [1], regex := [1],
    case_sensitive := [0], show_blank_cells := [1],
    match_groups_per_column := [0, 1], variant_to_search := [2],
    show_edited_cells := [1] }

/-- A partially checked cell (Qt::PartiallyChecked = 1). -/
def cellPartial : Cell :=
  { checkData := some 1, data2 := "", data40 := "", data24 := none }

/-- A checked cell (Qt::Checked = 2). -/
def cellChecked : Cell :=
  { checkData := some 2, data2 := "", data40 := "", data24 := none }

/-- An unchecked cell (Qt::Unchecked = 0). -/
def cellUnchecked : Cell :=
  { checkData := some 0, data2 := "", data40 := "", data24 := none }

/-- A filter entry with show_edited_cells enabled and a pattern its cell
text does not contain. -/
def cfgEdited : FilterConfig :=
  { columns := [0], patterns := ["zzz"], nott := [0], regex := [0],
    case_sensitive := [1], show_blank_cells := [0],
    match_groups_per_column := [0], variant_to_search := [0],
    show_edited_cells := [1] }

/-- A cell marked modified-from-vanilla at role 24. -/
def cellEdited : Cell :=
  { checkData := none, data2 := "a", data40 := "", data24 := some true }

/-- A model holding only `cellEdited`. -/
def modelEdited : TModel := [[cellEdited]]

/-- A concrete frozen-view state with nothing frozen and every column
visible. -/
def frozen0 : Frozen.FrozenState :=
  { frozenColumns := [], baseLeftMargin := -1, viewportMarginLeft := 0,
    columnHidden := fun _ => false, verticalHeaderVisible := true }

/-- The base filter used in the tree-filter evaluations: matches exactly
the display string "x". -/
def fX : String → Bool := fun s => s == "x"

/-- A childless node whose display matches `fX`. -/
def leafX : PTree := PTree.node "x" "" "" []

/-- A folder whose display does not match `fX`, holding `leafX`. -/
def folderY : PTree := PTree.node "y" "" "" [leafX]

/-- A childless node whose display does not match `fX`. -/
def leafZ : PTree := PTree.node "z" "" "" []

/-!
Theorems.
-/

/-- C10: when the configured pattern list is empty,
`QTableViewSortFilterProxyModel::filterAcceptsRow` (qt_rpfm_extensions)
returns true for every source row, regardless of the other configuration
lists and of the source model. -/
theorem C10_empty_filter_shows_everything (eng : RegexEngine) (cfg : FilterConfig)
    (m : TModel) (source_row : Int) (h : cfg.patterns = []) :
    QtExtTableFilter.filterAcceptsRow eng cfg m source_row = true := by
  simp [QtExtTableFilter.filterAcceptsRow, h]

/-- Witness for C10 on a configuration whose other lists are non-empty. -/
theorem C10_empty_filter_shows_everything_witness :
    cfgEmptyPatterns.patterns = [] ∧
    QtExtTableFilter.filterAcceptsRow eng0 cfgEmptyPatterns modelB 5 = true :=
  ⟨rfl, C10_empty_filter_shows_everything eng0 cfgEmptyPatterns modelB 5 rfl⟩

/-- C1 (divergence witness): with two non-empty entries both assigned to
match group 0 (patterns "a" and "b" on column 0) and a row whose cell
text is "b", the code accepts the row although group 0 is not fully valid
(the entry with pattern "a" fails), because the group-splitting loop
keeps only the last entry of each group; the claim, and the code's own
comment at tableview_filter.cpp lines 66-68, require the row to be
rejected. -/
theorem C1_group_splitting_divergence :
    QtExtTableFilter.filterAcceptsRow eng0 cfgTwoInGroup modelB 0 = true ∧
    QtExtTableFilter.specFilterAcceptsRow eng0 cfgTwoInGroup modelB 0 = false ∧
    buildMatchesPerGroup [0, 0] = [(0, [1])] := by
  decide

/-- C6: the table filter's modified-from-vanilla flag comes from role 24:
a null role-24 value is read as false, and an entry with
show_edited_cells enabled passes unconditionally on a cell whose role-24
value converts to true. -/
theorem C6_role24_modified_flag :
    (∀ c : Cell, c.data24 = none → isModifiedFromVanilla c = false) ∧
    (∀ (eng : RegexEngine) (cfg : FilterConfig) (m : TModel) (source_row : Int)
       (i : Nat) (cell : Cell),
       getCell m source_row (cfg.columns.getD i 0) = some cell →
       cfg.show_edited_cells.getD i 0 = 1 →
       isModifiedFromVanilla cell = true →
       entryKeepsGroup eng cfg m source_row i = true) := by
  constructor
  · intro c h
    simp [isModifiedFromVanilla, h]
  · intro eng cfg m source_row i cell hget hshow hmod
    simp only [List.getD_eq_getElem?_getD] at hget hshow
    by_cases hp : ((cfg.patterns[i]?).getD "").isEmpty = true
    · simp [entryKeepsGroup, hp]
    · simp [entryKeepsGroup, hp, hget, entryCellDecide, hshow, hmod]

/-- Witness for C6: a cell whose text fails the pattern still passes its
entry because role 24 marks it modified and show_edited_cells is on. -/
theorem C6_role24_modified_flag_witness :
    (cellPartial.data24 = none ∧ isModifiedFromVanilla cellPartial = false) ∧
    (getCell modelEdited 0 (cfgEdited.columns.getD 0 0) = some cellEdited ∧
     cfgEdited.show_edited_cells.getD 0 0 = 1 ∧
     isModifiedFromVanilla cellEdited = true ∧
     entryKeepsGroup eng0 cfgEdited modelEdited 0 0 = true) :=
  ⟨⟨rfl, C6_role24_modified_flag.1 cellPartial rfl⟩,
   by decide, rfl, rfl,
   C6_role24_modified_flag.2 eng0 cfgEdited modelEdited 0 0 cellEdited
     (by decide) rfl rfl⟩

/-- C8 (counterexample): with a partially checked cell (Qt::PartiallyChecked
= 1) against a checked cell, both `lessThan(a, b)` and `lessThan(b, a)`
return true, in the qt_rpfm_extensions comparator and in the identical
rpfm_ui one, so the comparator is not asymmetric on all pairs of cells
that carry a check state. -/
theorem C8_lessThan_not_asymmetric :
    QtExtTableFilter.lessThan cellPartial cellChecked false = true ∧
    QtExtTableFilter.lessThan cellChecked cellPartial false = true ∧
    UiTableFilter.lessThan true true 1 2 false = true ∧
    UiTableFilter.lessThan true true 2 1 false = true := by
  decide

/-- C8 (amended): restricted to pairs of cells that both carry a check
state equal to Unchecked (0) or Checked (2), both comparators return
false on equal states, false when the left cell is checked and the right
unchecked, true when the left is unchecked and the right checked, and are
asymmetric; with a PartiallyChecked state the asymmetry fails, as the
counterexample shows. -/
theorem C8_lessThan_swo_on_two_states (l r : Cell) (fb : Bool) (a b : Nat)
    (hsl : l.checkData.isSome = true) (hsr : r.checkData.isSome = true)
    (hl : checkStateOf l = 0 ∨ checkStateOf l = 2)
    (hr : checkStateOf r = 0 ∨ checkStateOf r = 2)
    (ha : a = 0 ∨ a = 2) (hb : b = 0 ∨ b = 2) :
    (checkStateOf l = checkStateOf r → QtExtTableFilter.lessThan l r fb = false) ∧
    (checkStateOf l = 2 → checkStateOf r = 0 → QtExtTableFilter.lessThan l r fb = false) ∧
    (checkStateOf l = 0 → checkStateOf r = 2 → QtExtTableFilter.lessThan l r fb = true) ∧
    ¬(QtExtTableFilter.lessThan l r fb = true ∧ QtExtTableFilter.lessThan r l fb = true) ∧
    (a = b → UiTableFilter.lessThan true true a b fb = false) ∧
    (a = 2 → b = 0 → UiTableFilter.lessThan true true a b fb = false) ∧
    (a = 0 → b = 2 → UiTableFilter.lessThan true true a b fb = true) ∧
    ¬(UiTableFilter.lessThan true true a b fb = true ∧
      UiTableFilter.lessThan true true b a fb = true) := by
  rcases hl with h1 | h1 <;> rcases hr with h2 | h2 <;> rcases ha with h3 | h3 <;>
    rcases hb with h4 | h4 <;>
    simp [QtExtTableFilter.lessThan, UiTableFilter.lessThan, hsl, hsr, h1, h2, h3, h4]

/-- Witness for C8 (amended): an unchecked cell sorts before a checked
one and the pair is not symmetric. -/
theorem C8_lessThan_swo_witness :
    QtExtTableFilter.lessThan cellUnchecked cellChecked false = true ∧
    ¬(QtExtTableFilter.lessThan cellUnchecked cellChecked false = true ∧
      QtExtTableFilter.lessThan cellChecked cellUnchecked false = true) :=
  ⟨(C8_lessThan_swo_on_two_states cellUnchecked cellChecked false 0 2 rfl rfl
      (Or.inl rfl) (Or.inr rfl) (Or.inl rfl) (Or.inr rfl)).2.2.1 rfl rfl,
   (C8_lessThan_swo_on_two_states cellUnchecked cellChecked false 0 2 rfl rfl
      (Or.inl rfl) (Or.inr rfl) (Or.inl rfl) (Or.inr rfl)).2.2.2.1⟩

/-- C7 (divergence witness): the constructor of QTableViewFrozen passes
its generateTooltipMessage member to the QTableViewSubFrozen constructor
on line 45 and only assigns it from the supplied parameter on line 46,
and the member has no initializer, so even when the supplied callback is
null the sub view's stored callback is the member's indeterminate prior
content (here: some 7) and a ToolTip event on the sub view invokes it;
the main view itself behaves as the claim says: no invocation, event
forwarded to the base class. -/
theorem C7_uninitialized_callback_divergence :
    (Frozen.mkTableViewFrozen (some 7) none).2 = some 7 ∧
    (Frozen.viewportEventSubFrozen (Frozen.mkTableViewFrozen (some 7) none).2 true).invoked = [7] ∧
    (Frozen.viewportEventFrozen (Frozen.mkTableViewFrozen (some 7) none).1 true).invoked = [] ∧
    (Frozen.viewportEventFrozen (Frozen.mkTableViewFrozen (some 7) none).1 true).forwardedToBase = true ∧
    (Frozen.viewportEventSubFrozen (Frozen.mkTableViewFrozen (some 7) none).2 true).forwardedToBase = true := by
  decide

/-- The geometry-update loop never touches the frozen-column list. -/
theorem hideFold_frozenColumns (l : List Nat) (s : Frozen.FrozenState) :
    (l.foldl Frozen.hideStep s).frozenColumns = s.frozenColumns := by
  induction l generalizing s with
  | nil => rfl
  | cons a t ih =>
    rw [List.foldl_cons, ih]
    rfl

/-- After `updateFrozenTableGeometry`, every in-range column's hidden
flag equals the negation of its frozen-list membership test. -/
theorem updGeo_hidden (n : Nat) (s : Frozen.FrozenState) (j : Int)
    (h0 : 0 ≤ j) (h1 : j < (n : Int)) :
    (Frozen.updateFrozenTableGeometry n s).columnHidden j =
      !(s.frozenColumns.contains j) := by
  induction n with
  | zero => exact absurd h1 (by omega)
  | succ k ih =>
    unfold Frozen.updateFrozenTableGeometry at ih ⊢
    rw [List.range_succ, List.foldl_append, List.foldl_cons, List.foldl_nil]
    by_cases hj : j = (k : Int)
    · simp [Frozen.hideStep, hj, hideFold_frozenColumns]
    · have hlt : j < (k : Int) := by
        omega
      simp only [Frozen.hideStep]
      have hne : (j == Int.ofNat k) = false := by
        simp [Int.ofNat_eq_natCast]
        exact hj
      simp only [hne, Bool.false_eq_true, if_false]
      exact ih hlt

/-- C2: after `toggleFreezer`, a source-model column is hidden in the
overlay frozen view exactly when it is not in `frozenColumns`. -/
theorem C2_frozen_pane_shows_frozen_columns (s : Frozen.FrozenState) (column : Int)
    (colCount : Nat) (i : Int) (h0 : 0 ≤ i) (h1 : i < (colCount : Int)) :
    ((Frozen.toggleFreezer colCount s column).columnHidden i = true ↔
      i ∉ (Frozen.toggleFreezer colCount s column).frozenColumns) := by
  have key : ∀ s2 : Frozen.FrozenState,
      ((Frozen.updateFrozenTableGeometry colCount s2).columnHidden i = true ↔
        i ∉ (Frozen.updateFrozenTableGeometry colCount s2).frozenColumns) := by
    intro s2
    rw [updGeo_hidden colCount s2 i h0 h1,
      show (Frozen.updateFrozenTableGeometry colCount s2).frozenColumns = s2.frozenColumns from
        hideFold_frozenColumns _ _]
    simp
  exact key _

/-- Witness for C2: freezing column 1 of a three-column model hides
column 0 and keeps column 1 visible. -/
theorem C2_frozen_pane_witness :
    (0 : Int) ≤ 0 ∧ (0 : Int) < (3 : Nat) ∧
    ((Frozen.toggleFreezer 3 frozen0 1).columnHidden 0 = true ↔
      (0 : Int) ∉ (Frozen.toggleFreezer 3 frozen0 1).frozenColumns) :=
  ⟨by decide, by decide,
   C2_frozen_pane_shows_frozen_columns frozen0 1 3 0 (by decide) (by decide)⟩

/-- Membership after the Select loop of the selection-sync handlers. -/
theorem mem_foldl_insert (l : List Frozen.Idx) (s : Finset Frozen.Idx)
    (x : Frozen.Idx) :
    (x ∈ l.foldl (fun acc index => insert index acc) s ↔ x ∈ s ∨ x ∈ l) := by
  induction l generalizing s with
  | nil => simp
  | cons a t ih =>
    rw [List.foldl_cons, ih]
    simp [Finset.mem_insert]
    tauto

/-- Membership after the Deselect loop of the selection-sync handlers. -/
theorem mem_foldl_erase (l : List Frozen.Idx) (s : Finset Frozen.Idx)
    (x : Frozen.Idx) :
    (x ∈ l.foldl (fun acc index => acc.erase index) s ↔ x ∈ s ∧ x ∉ l) := by
  induction l generalizing s with
  | nil => simp
  | cons a t ih =>
    rw [List.foldl_cons, ih]
    simp [Finset.mem_erase]
    tauto

/-- Membership characterization of `updateSelectionNormalToFrozen`. -/
theorem updateSelectionNormalToFrozen_mem (opp : Finset Frozen.Idx)
    (sel desel : List Frozen.Idx) (x : Frozen.Idx) :
    (x ∈ Frozen.updateSelectionNormalToFrozen opp sel desel ↔
      (x ∈ opp ∨ x ∈ sel) ∧ x ∉ desel) := by
  unfold Frozen.updateSelectionNormalToFrozen
  rw [mem_foldl_erase, mem_foldl_insert]

/-- Membership characterization of `updateSelectionFrozenToNormal`. -/
theorem updateSelectionFrozenToNormal_mem (opp : Finset Frozen.Idx)
    (sel desel : List Frozen.Idx) (x : Frozen.Idx) :
    (x ∈ Frozen.updateSelectionFrozenToNormal opp sel desel ↔
      (x ∈ opp ∨ x ∈ sel) ∧ x ∉ desel) := by
  unfold Frozen.updateSelectionFrozenToNormal
  rw [mem_foldl_erase, mem_foldl_insert]

/-- C3: each selection-sync handler selects in the opposite view every
index reported selected and deselects every index reported deselected
(the two delta lists of a Qt selectionChanged notification are disjoint),
and when the opposite view agreed with the originating view before the
change, it equals the originating view's new selection afterwards — in
both directions. -/
theorem C3_selection_sync (frozenSel mainSel : Finset Frozen.Idx)
    (sel desel : List Frozen.Idx)
    (hdisj : ∀ x ∈ sel, x ∉ desel) :
    (∀ x ∈ sel, x ∈ Frozen.updateSelectionNormalToFrozen frozenSel sel desel) ∧
    (∀ x ∈ desel, x ∉ Frozen.updateSelectionNormalToFrozen frozenSel sel desel) ∧
    (∀ x ∈ sel, x ∈ Frozen.updateSelectionFrozenToNormal mainSel sel desel) ∧
    (∀ x ∈ desel, x ∉ Frozen.updateSelectionFrozenToNormal mainSel sel desel) ∧
    (∀ originNew : Finset Frozen.Idx,
       originNew = (mainSel ∪ sel.toFinset) \ desel.toFinset →
       frozenSel = mainSel →
       Frozen.updateSelectionNormalToFrozen frozenSel sel desel = originNew) ∧
    (∀ originNew : Finset Frozen.Idx,
       originNew = (frozenSel ∪ sel.toFinset) \ desel.toFinset →
       mainSel = frozenSel →
       Frozen.updateSelectionFrozenToNormal mainSel sel desel = originNew) := by
  refine ⟨?_, ?_, ?_, ?_, ?_, ?_⟩
  · intro x hx
    rw [updateSelectionNormalToFrozen_mem]
    exact ⟨Or.inr hx, hdisj x hx⟩
  · intro x hx h
    rw [updateSelectionNormalToFrozen_mem] at h
    exact h.2 hx
  · intro x hx
    rw [updateSelectionFrozenToNormal_mem]
    exact ⟨Or.inr hx, hdisj x hx⟩
  · intro x hx h
    rw [updateSelectionFrozenToNormal_mem] at h
    exact h.2 hx
  · intro originNew hN hEq
    subst hN
    subst hEq
    ext x
    rw [updateSelectionNormalToFrozen_mem]
    simp [Finset.mem_sdiff, Finset.mem_union, List.mem_toFinset]
  · intro originNew hN hEq
    subst hN
    subst hEq
    ext x
    rw [updateSelectionFrozenToNormal_mem]
    simp [Finset.mem_sdiff, Finset.mem_union, List.mem_toFinset]

/-- Witness for C3 at a concrete selection change: index (1,1) newly
selected, index (0,0) deselected, both views starting at {(0,0)}. -/
theorem C3_selection_sync_witness :
    ((1, 1) : Frozen.Idx) ∈
      Frozen.updateSelectionNormalToFrozen {((0 : Int), (0 : Int))}
        [((1 : Int), (1 : Int))] [((0 : Int), (0 : Int))] ∧
    ((0, 0) : Frozen.Idx) ∉
      Frozen.updateSelectionNormalToFrozen {((0 : Int), (0 : Int))}
        [((1 : Int), (1 : Int))] [((0 : Int), (0 : Int))] :=
  ⟨(C3_selection_sync {((0 : Int), (0 : Int))} {((0 : Int), (0 : Int))}
      [((1 : Int), (1 : Int))] [((0 : Int), (0 : Int))] (by decide)).1
      ((1 : Int), (1 : Int)) (by decide),
   (C3_selection_sync {((0 : Int), (0 : Int))} {((0 : Int), (0 : Int))}
      [((1 : Int), (1 : Int))] [((0 : Int), (0 : Int))] (by decide)).2.1
      ((0 : Int), (0 : Int)) (by decide)⟩

/-- The child loop returns true as soon as the running result is true. -/
theorem treeLoop_true (f : String → Bool) (sB : Bool) (e1 e2 : String)
    (cs : List PTree) :
    UiTreeFilter.treeLoop f sB e1 e2 cs true = true := by
  cases cs <;> simp [UiTreeFilter.treeLoop]

/-- The child loop returns true whenever some child of the list is
accepted. -/
theorem treeLoop_of_child (f : String → Bool) (sB : Bool) (e1 e2 : String)
    (cs : List PTree) (c : PTree) (hc : c ∈ cs)
    (hacc : UiTreeFilter.treeAccepts f sB c = true) :
    ∀ r, UiTreeFilter.treeLoop f sB e1 e2 cs r = true := by
  induction cs with
  | nil => cases hc
  | cons a t ih =>
    intro r
    by_cases hr : r = true
    · subst hr
      exact treeLoop_true f sB e1 e2 (a :: t)
    · have hr0 : r = false := by
        cases r
        · rfl
        · exact absurd rfl hr
      subst hr0
      simp only [UiTreeFilter.treeLoop, Bool.false_eq_true, if_false]
      rcases List.mem_cons.mp hc with h | h
      · subst h
        simp only [hacc, Bool.or_true]
        exact treeLoop_true f sB e1 e2 t
      · exact ih h _

/-- C5: a folder row is accepted whenever one of its children is
accepted by the same filter, and a childless row that the base filter
rejects is accepted when its parent row matches the base filter. -/
theorem C5_tree_filter_propagation (f : String → Bool) (parentBase : Bool)
    (d e1 e2 : String) (cs : List PTree) :
    (∀ c, c ∈ cs → UiTreeFilter.treeAccepts f (f d) c = true →
       UiTreeFilter.treeAccepts f parentBase (PTree.node d e1 e2 cs) = true) ∧
    (cs = [] → f d = false → parentBase = true →
       UiTreeFilter.treeAccepts f parentBase (PTree.node d e1 e2 cs) = true) := by
  constructor
  · intro c hc hacc
    have hne : cs.isEmpty = false := by
      cases cs
      · cases hc
      · rfl
    simp only [UiTreeFilter.treeAccepts, hne, Bool.false_eq_true, if_false]
    exact treeLoop_of_child f (f d) e1 e2 cs c hc hacc (f d)
  · intro h hf hp
    subst h
    simp [UiTreeFilter.treeAccepts, hf, hp]

/-- Witness for C5: the folder "y" is kept because its child "x" matches,
and the leaf "z" is kept because its parent matches. -/
theorem C5_tree_filter_propagation_witness :
    UiTreeFilter.treeAccepts fX false folderY = true ∧
    UiTreeFilter.treeAccepts fX true leafZ = true := by
  constructor
  · exact (C5_tree_filter_propagation fX false "y" "" "" [leafX]).1 leafX
      (by simp)
      (by simp [UiTreeFilter.treeAccepts, fX, leafX])
  · exact (C5_tree_filter_propagation fX true "z" "" "" []).2 rfl
      (by simp [fX]) rfl

/-- qBound keeps its result inside the bounds when they are ordered. -/
theorem qBound_bounds (lo v hi : Int) (h : lo ≤ hi) :
    lo ≤ SpinBox.qBound lo v hi ∧ SpinBox.qBound lo v hi ≤ hi := by
  unfold SpinBox.qBound
  exact ⟨le_max_left lo (min hi v), max_le h (min_le_left hi v)⟩

/-- setValue keeps the bounds and re-establishes the invariant. -/
theorem setValue_inv (s : SpinBox.SpinState) (v : Int)
    (h : s.m_minimum ≤ s.m_maximum) :
    SpinBox.SpinInv (SpinBox.setValue s v) :=
  ⟨h, (qBound_bounds s.m_minimum v s.m_maximum h).1,
    (qBound_bounds s.m_minimum v s.m_maximum h).2⟩

/-- lineEditEditingFinalize calls setValue on every path, so it
preserves the invariant. -/
theorem finalize_inv (s : SpinBox.SpinState) (h : SpinBox.SpinInv s) :
    SpinBox.SpinInv (SpinBox.lineEditEditingFinalize s) := by
  unfold SpinBox.lineEditEditingFinalize
  dsimp only
  split
  · exact setValue_inv _ _ h.1
  · split
    · split
      · exact setValue_inv _ _ h.1
      · exact setValue_inv _ _ h.1
    · exact setValue_inv _ _ h.1

/-- The post-edit phase of stepBy preserves the invariant. -/
theorem stepByResolved_inv (s1 : SpinBox.SpinState) (steps : Int)
    (h1 : SpinBox.SpinInv s1) :
    SpinBox.SpinInv (SpinBox.stepByResolved s1 steps) := by
  unfold SpinBox.stepByResolved
  dsimp only
  split
  · exact h1
  · exact setValue_inv _ _ h1.1

/-- stepBy preserves the invariant. -/
theorem stepBy_inv (s : SpinBox.SpinState) (steps : Int)
    (h : SpinBox.SpinInv s) :
    SpinBox.SpinInv (SpinBox.stepBy s steps) := by
  unfold SpinBox.stepBy
  split
  · exact h
  · dsimp only
    apply stepByResolved_inv
    split
    · exact finalize_inv s h
    · exact h

/-- setMinimum: invariant plus the bound-crossing behaviour. -/
theorem setMinimum_spec (s : SpinBox.SpinState) (mn : Int)
    (_h : SpinBox.SpinInv s) :
    SpinBox.SpinInv (SpinBox.setMinimum s mn) ∧
    (SpinBox.setMinimum s mn).m_maximum =
      (if s.m_maximum < mn then mn else s.m_maximum) := by
  unfold SpinBox.setMinimum
  dsimp only
  split
  · rename_i hcross
    exact ⟨setValue_inv _ _ (le_refl mn), rfl⟩
  · rename_i hcross
    exact ⟨setValue_inv _ _ (le_of_not_lt hcross), rfl⟩

/-- setMaximum: invariant plus the bound-crossing behaviour. -/
theorem setMaximum_spec (s : SpinBox.SpinState) (mx : Int)
    (_h : SpinBox.SpinInv s) :
    SpinBox.SpinInv (SpinBox.setMaximum s mx) ∧
    (SpinBox.setMaximum s mx).m_maximum =
      (if mx < s.m_minimum then s.m_minimum else mx) := by
  unfold SpinBox.setMaximum
  dsimp only
  split
  · rename_i hcross
    exact ⟨setValue_inv _ _ (le_refl _), rfl⟩
  · rename_i hcross
    exact ⟨setValue_inv _ _ (le_of_not_lt hcross), rfl⟩

/-- setRange preserves the invariant. -/
theorem setRange_inv (s : SpinBox.SpinState) (mn mx : Int) :
    SpinBox.SpinInv (SpinBox.setRange s mn mx) := by
  unfold SpinBox.setRange
  dsimp only
  split
  · rename_i hlt
    exact setValue_inv _ _ (le_of_lt hlt)
  · rename_i hlt
    exact setValue_inv _ _ (le_of_not_lt hlt)

/-- C9: the spin box keeps `m_minimum ≤ m_value ≤ m_maximum` (and
`m_minimum ≤ m_maximum`) after construction and after every modelled
mutator; setValue clamps with qBound; setMinimum and setMaximum raise
m_maximum to m_minimum when the bounds would cross, before re-clamping. -/
theorem C9_spinbox_bounds :
    SpinBox.SpinInv SpinBox.mkQtLongLongSpinBox ∧
    (∀ s v, SpinBox.SpinInv s →
       SpinBox.SpinInv (SpinBox.setValue s v) ∧
       (SpinBox.setValue s v).m_value = SpinBox.qBound s.m_minimum v s.m_maximum) ∧
    (∀ s p, SpinBox.SpinInv s → SpinBox.SpinInv (SpinBox.setPrefixText s p)) ∧
    (∀ s x, SpinBox.SpinInv s → SpinBox.SpinInv (SpinBox.setSuffixText s x)) ∧
    (∀ s mn, SpinBox.SpinInv s →
       SpinBox.SpinInv (SpinBox.setMinimum s mn) ∧
       (SpinBox.setMinimum s mn).m_maximum =
         (if s.m_maximum < mn then mn else s.m_maximum)) ∧
    (∀ s mx, SpinBox.SpinInv s →
       SpinBox.SpinInv (SpinBox.setMaximum s mx) ∧
       (SpinBox.setMaximum s mx).m_maximum =
         (if mx < s.m_minimum then s.m_minimum else mx)) ∧
    (∀ s mn mx, SpinBox.SpinInv s → SpinBox.SpinInv (SpinBox.setRange s mn mx)) ∧
    (∀ s steps, SpinBox.SpinInv s → SpinBox.SpinInv (SpinBox.stepBy s steps)) ∧
    (∀ s, SpinBox.SpinInv s → SpinBox.SpinInv (SpinBox.lineEditEditingFinalize s)) := by
  refine ⟨?_, ?_, ?_, ?_, ?_, ?_, ?_, ?_, ?_⟩
  · exact setValue_inv _ 0 (by decide)
  · intro s v h
    exact ⟨setValue_inv s v h.1, rfl⟩
  · intro s p h
    exact setValue_inv _ _ h.1
  · intro s x h
    exact setValue_inv _ _ h.1
  · intro s mn h
    exact setMinimum_spec s mn h
  · intro s mx h
    exact setMaximum_spec s mx h
  · intro s mn mx _
    exact setRange_inv s mn mx
  · intro s steps h
    exact stepBy_inv s steps h
  · intro s h
    exact finalize_inv s h

/-- Witness for C9: the freshly constructed spin box satisfies the
invariant, and so does the result of lowering the maximum to -5 (which
crosses the default bounds of a value of 0). -/
theorem C9_spinbox_bounds_witness :
    SpinBox.SpinInv (SpinBox.setMaximum SpinBox.mkQtLongLongSpinBox (-5)) :=
  (C9_spinbox_bounds.2.2.2.2.2.1 SpinBox.mkQtLongLongSpinBox (-5)
    (by decide)).1

/-- The entry loop leaves the threaded model unchanged. -/
theorem entriesRun_snd (eng : RegexEngine) (cfg : FilterConfig) (source_row : Int)
    (idxs : List Nat) (m : TModel) :
    (QtExtTableFilter.entriesRun eng cfg source_row idxs m).2 = m := by
  induction idxs generalizing m with
  | nil => rfl
  | cons i rest ih =>
    simp only [QtExtTableFilter.entriesRun, modelRead]
    split
    · exact ih m
    · split
      · exact ih m
      · rfl

/-- The group loop leaves the threaded model unchanged. -/
theorem groupsRun_snd (eng : RegexEngine) (cfg : FilterConfig) (source_row : Int)
    (groups : List (Int × List Nat)) (m : TModel) :
    (QtExtTableFilter.groupsRun eng cfg source_row groups m).2 = m := by
  induction groups generalizing m with
  | nil => rfl
  | cons g rest ih =>
    simp only [QtExtTableFilter.groupsRun]
    split
    · exact entriesRun_snd eng cfg source_row g.2 m
    · rw [entriesRun_snd eng cfg source_row g.2 m]
      exact ih m

mutual

/-- The threaded tree filter leaves the model unchanged. -/
theorem treeAcceptsRun_snd (f : String → Bool) (pB : Bool) (t tm : PTree) :
    (UiTreeFilter.treeAcceptsRun f pB t tm).2 = tm := by
  cases t with
  | node d e1 e2 cs =>
    by_cases hcs : cs.isEmpty = true
    · simp only [UiTreeFilter.treeAcceptsRun, modelRead, hcs, if_true]
      split <;> rfl
    · simp only [UiTreeFilter.treeAcceptsRun, modelRead, hcs, Bool.false_eq_true, if_false]
      exact treeLoopRun_snd f (f d) e1 e2 cs (f d) tm

/-- The threaded child loop leaves the model unchanged. -/
theorem treeLoopRun_snd (f : String → Bool) (sB : Bool) (e1 e2 : String)
    (cs : List PTree) (r : Bool) (tm : PTree) :
    (UiTreeFilter.treeLoopRun f sB e1 e2 cs r tm).2 = tm := by
  cases cs with
  | nil => rfl
  | cons c rest =>
    simp only [UiTreeFilter.treeLoopRun, modelRead]
    split
    · rfl
    · rw [treeLoopRun_snd f sB e1 e2 rest _ _]
      exact treeAcceptsRun_snd f sB c tm

end

/-- C4: evaluating the proxy filter and sort callbacks leaves the source
model unchanged: `filterAcceptsRow` and `lessThan` of the
qt_rpfm_extensions table proxy and `filterAcceptsRow` of the rpfm_ui tree
proxy return their verdict with the threaded model identical to the
input, so every item, role value and row/column count is the same before
and after. -/
theorem C4_proxy_filters_leave_model_unchanged (eng : RegexEngine)
    (cfg : FilterConfig) (m : TModel) (source_row lrow lcol rrow rcol : Int)
    (fallback : Bool) (f : String → Bool) (parentBase : Bool) (t tm : PTree) :
    (QtExtTableFilter.filterAcceptsRowRun eng cfg m source_row).2 = m ∧
    (QtExtTableFilter.lessThanRun m lrow lcol rrow rcol fallback).2 = m ∧
    (UiTreeFilter.treeAcceptsRun f parentBase t tm).2 = tm := by
  refine ⟨?_, ?_, ?_⟩
  · unfold QtExtTableFilter.filterAcceptsRowRun
    split
    · rfl
    · exact groupsRun_snd eng cfg source_row _ m
  · cases hl : getCell m lrow lcol <;> cases hr : getCell m rrow rcol <;>
      simp [QtExtTableFilter.lessThanRun, modelRead, hl, hr]
  · exact treeAcceptsRun_snd f parentBase t tm

end Rpfm
